import Mathlib

/-!
# Verification of the esxi-getsmart drive-health collector

A shallow embedding of the parsing, health-classification and collection
logic of `src/main.py`.  Python strings are modelled as lists of
characters; Python `str.strip`, `str.split`, `int(...)`, `float(...)`
and dictionary operations are modelled by executable Lean functions
that follow the semantics of the corresponding library calls.  Python
floats are modelled as exact rationals.  Exceptions are modelled with
`Except`.
-/

/-- A Python string, modelled as a list of characters. -/
abbrev Str := List Char

/-- The characters treated as whitespace by Python `str.strip()` and
`str.split()` with no argument (ASCII whitespace). -/
def isPyWs (c : Char) : Bool :=
  c = ' ' || c = '\t' || c = '\n' || c = '\r' || c = '\x0b' || c = '\x0c'

/-- Remove leading and trailing characters satisfying `f` from a list,
the common core of the two Python `strip` variants. -/
def stripBoth (f : Char → Bool) (s : Str) : Str :=
  ((s.dropWhile f).reverse.dropWhile f).reverse

/-- Python `s.strip()`: remove leading and trailing whitespace. -/
def pyStripWs (s : Str) : Str := stripBoth isPyWs s

/-- Python `s.strip(chars)`: remove leading and trailing characters that
occur anywhere in `chars`.  Note this strips a character SET, it does
not remove a substring. -/
def pyStripChars (chars : Str) (s : Str) : Str :=
  stripBoth (fun c => chars.contains c) s

/-- Python `s.split(sep)` for a one-character separator: split at every
occurrence of `sep`, keeping empty segments.  Always returns at least
one segment. -/
def pySplitOn (sep : Char) : Str → List Str
  | [] => [[]]
  | c :: cs =>
    match pySplitOn sep cs with
    | [] => [[]]
    | t :: ts => if c = sep then [] :: t :: ts else (c :: t) :: ts

/-- Helper for `pySplitWs`: `acc` holds the reversed current token. -/
def pySplitWsAux : Str → Str → List Str
  | acc, [] => if acc = [] then [] else [acc.reverse]
  | acc, c :: cs =>
    if isPyWs c then
      if acc = [] then pySplitWsAux [] cs else acc.reverse :: pySplitWsAux [] cs
    else
      pySplitWsAux (c :: acc) cs

/-- Python `s.split()` with no argument: split on runs of whitespace,
discarding empty tokens. -/
def pySplitWs (s : Str) : List Str := pySplitWsAux [] s

/-- Whether `p` is a prefix of `s` (Boolean, character lists). -/
def chPfx : Str → Str → Bool
  | [], _ => true
  | _ :: _, [] => false
  | a :: as, b :: bs => a = b && chPfx as bs

/-- Python `needle in line`: contiguous substring membership. -/
def chContains (needle : Str) : Str → Bool
  | [] => needle = []
  | c :: cs => chPfx needle (c :: cs) || chContains needle cs

/-- Numeric value of a string of decimal digits (most significant first). -/
def digitsVal (s : Str) : Nat :=
  s.foldl (fun a c => a * 10 + (c.toNat - 48)) 0

/-- Whether `c` is a hexadecimal digit (both cases), as accepted by
Python `int(x, 16)`. -/
def isHexDigit (c : Char) : Bool :=
  c.isDigit || ('a' ≤ c && c ≤ 'f') || ('A' ≤ c && c ≤ 'F')

/-- Numeric value of one hexadecimal digit. -/
def hexDigitVal (c : Char) : Nat :=
  if c.isDigit then c.toNat - 48
  else if 'a' ≤ c && c ≤ 'f' then c.toNat - 87
  else c.toNat - 55

/-- Numeric value of a string of hexadecimal digits. -/
def ofHexDigits (s : Str) : Nat :=
  s.foldl (fun a c => a * 16 + hexDigitVal c) 0

/-- Split an optional leading sign from a numeric literal, returning the
sign as an integer factor. -/
def splitSign : Str → Int × Str
  | [] => (1, [])
  | c :: r => if c = '-' then (-1, r) else if c = '+' then (1, r) else (1, c :: r)

/-- Python `int(x)` on a string: optional surrounding whitespace, an
optional sign, then decimal digits.  Returns `none` where Python raises
`ValueError`.  (Underscore digit separators are not modelled; none of
the verified inputs use them.) -/
def pyInt (s : Str) : Option Int :=
  let s := pyStripWs s
  let (sign, s) := splitSign s
  if s ≠ [] && s.all Char.isDigit then some (sign * (digitsVal s : Int)) else none

/-- Remove an optional leading `0x` or `0X` tag, as accepted by Python
`int(x, 16)`. -/
def strip0x : Str → Str
  | a :: b :: r => if a = '0' && (b = 'x' || b = 'X') then r else a :: b :: r
  | t => t

/-- Python `int(x, 16)` on a string: optional surrounding whitespace, an
optional sign, an optional `0x`/`0X` tag, then hexadecimal digits.
Returns `none` where Python raises `ValueError`. -/
def pyIntBase16 (s : Str) : Option Int :=
  let s := pyStripWs s
  let (sign, s) := splitSign s
  let s := strip0x s
  if s ≠ [] && s.all isHexDigit then some (sign * (ofHexDigits s : Nat)) else none

/-- An exact rational with explicit numerator and denominator, not
normalized.  Python floats are modelled as exact rationals of this
form; every construction site supplies a positive denominator. -/
structure Frac : Type where
  n : Int
  d : Nat
deriving DecidableEq, Repr

/-- Exact subtraction of fractions (cross multiplication). -/
def fracSub (a b : Frac) : Frac :=
  ⟨a.n * (b.d : Int) - b.n * (a.d : Int), a.d * b.d⟩

/-- The constant 273.15 used by the Kelvin-to-Celsius conversion. -/
def k27315 : Frac := ⟨27315, 100⟩

/-- Python `float(x)` on a string, modelled as an exact rational:
optional surrounding whitespace, an optional sign, then a decimal
literal `digits`, `digits.digits`, `.digits` or `digits.` with at
least one digit.  Exponent and infinity/nan forms are not modelled;
the diagnostic outputs under verification use plain decimals. -/
def pyFloat (s : Str) : Option Frac :=
  let s := pyStripWs s
  let (sign, s) := splitSign s
  match pySplitOn '.' s with
  | [ip] =>
    if ip ≠ [] && ip.all Char.isDigit then some ⟨sign * (digitsVal ip : Int), 1⟩ else none
  | [ip, fp] =>
    if (ip ++ fp) ≠ [] && ip.all Char.isDigit && fp.all Char.isDigit then
      some ⟨sign * ((digitsVal ip * 10 ^ fp.length + digitsVal fp : Nat) : Int), 10 ^ fp.length⟩
    else none
  | _ => none

/-- Python `round(x)` with one argument: round to the nearest integer,
ties to the even integer (bankers rounding), on the exact-rational
model of floats. -/
def pyRound (q : Frac) : Int :=
  let f := Int.fdiv q.n (q.d : Int)
  let rnum := q.n - f * (q.d : Int)
  if 2 * rnum < (q.d : Int) then f
  else if (q.d : Int) < 2 * rnum then f + 1
  else if f % 2 = 0 then f else f + 1

/-- A value stored in the per-drive dictionary `smart_data`: the Python
code stores either strings or integers. -/
inductive Value : Type where
  | str (s : Str)
  | int (n : Int)
deriving DecidableEq, Repr

/-- The Python exceptions the embedded code can raise. -/
inductive PyError : Type where
  | indexError
  | valueError
  | typeError
  | keyError (k : Str)
deriving DecidableEq, Repr

deriving instance DecidableEq for Except

/-- Insertion into an association list with Python-dict semantics:
update in place when the key exists, append otherwise. -/
def alInsert {α : Type} (k : Str) (v : α) : List (Str × α) → List (Str × α)
  | [] => [(k, v)]
  | (k', v') :: rest =>
    if k' = k then (k', v) :: rest else (k', v') :: alInsert k v rest

/-- Lookup in an association list (Python dict read). -/
def alLookup {α : Type} (k : Str) : List (Str × α) → Option α
  | [] => none
  | (k', v) :: rest => if k' = k then some v else alLookup k rest

/-- A Drive Health Record: the `smart_data` dictionary. -/
abbrev SmartData := List (Str × Value)

/-- Python `xs[1]` on the result of a split: the element between the
first and second separator, raising `IndexError` when absent. -/
def item1 : List Str → Except PyError Str
  | _ :: v :: _ => .ok v
  | _ => .error .indexError

/-- First token of `v.split()`; `IndexError` when there is none. -/
def firstTok (v : Str) : Except PyError Str :=
  match pySplitWs v with
  | t :: _ => .ok t
  | [] => .error .indexError

/-- `float(t)` with `ValueError` on failure. -/
def toFloat (t : Str) : Except PyError Frac :=
  match pyFloat t with
  | some q => .ok q
  | none => .error .valueError

/-- `int(t)` with `ValueError` on failure. -/
def toIntDec (t : Str) : Except PyError Int :=
  match pyInt t with
  | some n => .ok n
  | none => .error .valueError

/-- `int(t, 16)` with `ValueError` on failure. -/
def toIntHex (t : Str) : Except PyError Int :=
  match pyIntBase16 t with
  | some n => .ok n
  | none => .error .valueError

def healthKey : Str := "Health Status".toList
def spareKey : Str := "Available Spare (%)".toList
def thresholdKey : Str := "Available Spare Threshold (%)".toList
def celciusKey : Str := "Drive Temperature (Celcius)".toList

/-- The value conversion `int(round(float(v.split()[0]) - 273.15))`
of the `Composite Temperature` branch (`main.py` line 131). -/
def tempValue (v : Str) : Except PyError Value :=
  match firstTok v with
  | .error ex => .error ex
  | .ok t =>
    match pyFloat t with
    | none => .error .valueError
    | some q => .ok (Value.int (pyRound (fracSub q k27315)))

/-- The value conversion `int(v.split(chr(37))[0].strip())` of the
percentage branches (`main.py` lines 134, 137, 140). -/
def pctValue (v : Str) : Except PyError Value :=
  match pyInt (pyStripWs (pySplitOn '%' v).headI) with
  | none => .error .valueError
  | some n => .ok (Value.int n)

/-- The value conversion `int(v.strip()[2:], 16)` of the hexadecimal
branches (`main.py` lines 143, 146, 149). -/
def hexValue (v : Str) : Except PyError Value :=
  match pyIntBase16 ((pyStripWs v).drop 2) with
  | none => .error .valueError
  | some n => .ok (Value.int n)

/-- One recognized key of the NVME parser: the constant `line[0]` is
tested against, the key the converted value is stored under, and the
value conversion applied to `line[1]`. -/
structure NField : Type where
  key : Str
  store : Str
  conv : Str → Except PyError Value

/-- The NVME branches in source order (`main.py` lines 126-150).  The
source tests `line[0]` against eight distinct constants with
independent `if` statements; at most one can match, and inside a
matched branch the stored key `line[0]` equals the tested constant. -/
def nvmeFields : List NField :=
  [⟨"NVM Subsystem Reliability Degradation".toList,
    "NVM Subsystem Reliability Degradation".toList, fun v => .ok (Value.str (pyStripWs v))⟩,
   ⟨"Volatile Memory Backup Device Failure".toList,
    "Volatile Memory Backup Device Failure".toList, fun v => .ok (Value.str (pyStripWs v))⟩,
   ⟨"Composite Temperature".toList, celciusKey, tempValue⟩,
   ⟨"Available Spare".toList, spareKey, pctValue⟩,
   ⟨"Available Spare Threshold".toList, thresholdKey, pctValue⟩,
   ⟨"Percentage Used".toList, "Percentage Used (%)".toList, pctValue⟩,
   ⟨"Unsafe Shutdowns".toList, "Unsafe Shutdowns".toList, hexValue⟩,
   ⟨"Media Errors".toList, "Media Errors".toList, hexValue⟩,
   ⟨"Number of Error Info Log Entries".toList, "Number of Error Info Log Entries".toList, hexValue⟩]

/-- The key and converted value one NVME output line contributes to
`smart_data`, or `none` when `line[0]` matches no recognized key
(`main.py` lines 126-150). -/
def nvmeLineAction (parts : List Str) : Except PyError (Option (Str × Value)) :=
  match nvmeFields.find? (fun f => decide (parts.headI = f.key)) with
  | none => .ok none
  | some f =>
    match item1 parts with
    | .error ex => .error ex
    | .ok v =>
      match f.conv v with
      | .error ex => .error ex
      | .ok w => .ok (some (f.store, w))

/-- One iteration of the NVME parsing loop (`main.py` lines 124-150):
`line = line.strip().split(':')`, then the per-key conversion and the
dictionary store of the matched branch, if any. -/
def nvmeProcessLine (r : SmartData) (rawLine : Str) : Except PyError SmartData :=
  match nvmeLineAction (pySplitOn ':' (pyStripWs rawLine)) with
  | .error ex => .error ex
  | .ok none => .ok r
  | .ok (some (k, v)) => .ok (alInsert k v r)

/-- The full NVME case (`main.py` lines 124-152): the per-line loop
followed by the spare-versus-threshold health verdict.  The dictionary
reads on line 151 raise `KeyError` when a key is missing (left lookup
first, as in Python), and comparing a non-integer raises `TypeError`. -/
def nvmeParse (r0 : SmartData) (lines : List Str) : Except PyError SmartData := do
  let r ← lines.foldlM nvmeProcessLine r0
  match alLookup spareKey r, alLookup thresholdKey r with
  | some (Value.int a), some (Value.int b) =>
    pure (if a ≤ b then alInsert healthKey (Value.str "Not OK".toList) r else r)
  | none, _ => .error (.keyError spareKey)
  | some _, none => .error (.keyError thresholdKey)
  | some _, some _ => .error .typeError

/-- One recognized label of the SATA/DISK parsers: the label substring
searched for in the line, the dictionary key the value is stored
under, and the index taken from the split of the stripped line. -/
structure SField : Type where
  label : Str
  key : Str
  idx : Nat
deriving DecidableEq, Repr

/-- One `if` statement of the SATA/DISK parsing loops: when the label
occurs in the line, strip the characters of the label from both ends
(`line.strip(label)` — a character-set strip), split on whitespace and
store the token at `idx`; `IndexError` when that token is missing. -/
def applySmartField (line : Str) (r : SmartData) (f : SField) : Except PyError SmartData :=
  if chContains f.label line then
    match (pySplitWs (pyStripChars f.label line)).get? f.idx with
    | some tok => .ok (alInsert f.key (Value.str tok) r)
    | none => .error .indexError
  else .ok r

/-- The SATA fields in source order (`main.py` lines 166-198). -/
def sataFields : List SField :=
  [⟨"Health Status".toList, healthKey, 0⟩,
   ⟨"Drive Temperature".toList, celciusKey, 3⟩,
   ⟨"Media Wearout Indicator".toList, "Media Wearout Indicator".toList, 3⟩,
   ⟨"Reallocated Sector Count".toList, "Reallocated Sector Count".toList, 3⟩,
   ⟨"Write Sectors TOT Count".toList, "Write Sectors TOT Count".toList, 3⟩,
   ⟨"Read Sectors TOT Count".toList, "Read Sectors TOT Count".toList, 3⟩,
   ⟨"Initial Bad Block Count".toList, "Initial Bad Block Count".toList, 3⟩,
   ⟨"Program Fail Count".toList, "Program Fail Count".toList, 3⟩,
   ⟨"Erase Fail Count".toList, "Erase Fail Count".toList, 3⟩,
   ⟨"Uncorrectable Error Count".toList, "Uncorrectable Error Count".toList, 3⟩,
   ⟨"Pending Sector Reallocation Count".toList, "Pending Sector Reallocation Count".toList, 3⟩]

/-- The DISK fields in source order (`main.py` lines 212-232). -/
def diskFields : List SField :=
  [⟨"Health Status".toList, healthKey, 0⟩,
   ⟨"Drive Temperature".toList, celciusKey, 3⟩,
   ⟨"Read Error Count".toList, "Read Error Count".toList, 3⟩,
   ⟨"Reallocated Sector Count".toList, "Reallocated Sector Count".toList, 3⟩,
   ⟨"Sector Reallocation Event Count".toList, "Sector Reallocation Event Count".toList, 3⟩,
   ⟨"Pending Sector Reallocation Count".toList, "Pending Sector Reallocation Count".toList, 3⟩,
   ⟨"Uncorrectable Sector Count".toList, "Uncorrectable Sector Count".toList, 3⟩]

/-- The SATA/DISK per-line loops: every recognized field is tried on
every line, in source order. -/
def parseSmartLines (fields : List SField) (r0 : SmartData) (lines : List Str) :
    Except PyError SmartData :=
  lines.foldlM (fun r line => fields.foldlM (applySmartField line) r) r0

/-- One row of the inventory CSV: `server_name; host_address;
drive_type; drive_identifier` (`row[0]` to `row[3]`). -/
structure Entry : Type where
  serverName : Str
  hostAddr : Str
  driveType : Str
  driveName : Str
deriving DecidableEq, Repr

/-- The outcome of one remote SSH command: either the stdout lines of a
run that completed, or an exception (connection, authentication or
execution failure) carrying its message. -/
inductive ExecOutcome : Type where
  | success (lines : List Str)
  | failure (msg : Str)
deriving DecidableEq, Repr

/-- `esxi_command` (`main.py` lines 294-326): on a run without
exception, returns the stdout lines paired with the status string
`OK`; on any exception, logs the error (second component: messages
appended to the log) and falls out of the handler without a `return`,
so the caller receives `None`. -/
def esxi_command (oc : ExecOutcome) : Option (List Str × Str) × List Str :=
  match oc with
  | .success lines => (some (lines, "OK".toList), [])
  | .failure m => (none, [m])

/-- The recognized drive types (`drive_types`, `main.py` lines 49-53). -/
def driveTypes : List Str := ["NVME".toList, "SATA".toList, "DISK".toList]

/-- The initial `smart_data` dictionary for a row (`main.py` lines
106-109): three successive dictionary assignments on an empty dict. -/
def baseRecord (e : Entry) : SmartData :=
  alInsert healthKey (Value.str "OK".toList)
    (alInsert "Drive Name".toList (Value.str e.driveName)
      (alInsert "Drive Type".toList (Value.str e.driveType) []))

/-- The composite server key (`main.py` line 236). -/
def serverKey (e : Entry) : Str :=
  e.serverName ++ " (".toList ++ e.hostAddr ++ ")".toList

/-- `main.py` lines 93-95.  The source sets `esxi_user = "root"` and
then replaces it with `os.getenv(ESXI_USER)` whenever
`os.getenv(ESXI_USER) is not esxi_user`.  `is not` compares object
identity: `None` is never identical to a string, and a string decoded
from the process environment is a different object from the interned
literal, so the condition always holds and the final value is the
`os.getenv` result — `none` when the variable is unset. -/
def resolveEsxiUser (env : Option Str) : Option Str := env

/-- The `match row[2]` block (`main.py` lines 112-232) for one row:
returns the log messages emitted while it runs and either an
exception or the finished `smart_data` paired with `command_status`.
For a recognized type it calls `esxi_command`; when that returns
`None`, the subscript `output[1]` raises `TypeError`.  For an
unrecognized type no case matches and the record and the initial
status `Not OK` fall through unchanged. -/
def stepDrive (e : Entry) (oc : ExecOutcome) : List Str × Except PyError (SmartData × Str) :=
  let base := baseRecord e
  if e.driveType = "NVME".toList then
    match esxi_command oc with
    | (none, msgs) => (msgs, .error .typeError)
    | (some (lines, status), msgs) =>
      (msgs, (nvmeParse base lines).map (fun d => (d, status)))
  else if e.driveType = "SATA".toList then
    match esxi_command oc with
    | (none, msgs) => (msgs, .error .typeError)
    | (some (lines, status), msgs) =>
      (msgs, (parseSmartLines sataFields base lines).map (fun d => (d, status)))
  else if e.driveType = "DISK".toList then
    match esxi_command oc with
    | (none, msgs) => (msgs, .error .typeError)
    | (some (lines, status), msgs) =>
      (msgs, (parseSmartLines diskFields base lines).map (fun d => (d, status)))
  else
    ([], .ok (base, "Not OK".toList))

/-- The mutable state of the main loop: the `servers` dictionary and
the sequence of messages written to the log file. -/
structure RunSt : Type where
  servers : List (Str × List SmartData)
  log : List Str
deriving DecidableEq, Repr

/-- How a run of the main loop ended: all rows processed, the `break`
on line 247 taken, or an uncaught exception. -/
inductive StopReason : Type where
  | finished
  | brokeOut
  | raised (e : PyError)
deriving DecidableEq, Repr

/-- Append a record to the list stored under `k`; call sites guarantee
`k` is present (mirroring `servers[server_key].append(...)`, which
would raise `KeyError` otherwise). -/
def alAppendRec (k : Str) (d : SmartData) :
    List (Str × List SmartData) → List (Str × List SmartData)
  | [] => []
  | (k', l) :: rest =>
    if k' = k then (k', l ++ [d]) :: rest else (k', l) :: alAppendRec k d rest

def startMsg (e : Entry) : Str :=
  "########## Starting CSV iteration for ".toList ++ e.serverName
    ++ " drive ".toList ++ e.driveName ++ " ##########".toList

def unsupportedMsg : Str := "########## Unsupported drive type ##########".toList

def failedMsg (e : Entry) : Str :=
  "########## Command for ".toList ++ e.serverName ++ ", drive ".toList
    ++ e.driveName ++ " unsuccessful ##########".toList

def successMsg (e : Entry) : Str :=
  "########## Command for ".toList ++ e.serverName ++ ", drive ".toList
    ++ e.driveName ++ " successful ##########".toList

/-- One iteration of the `for row in csv_content` loop (`main.py`
lines 88-249): the start log line, the drive-type validation warning,
the `match` block, the server-key insertion, and the append-or-break
on the command status.  Returns the new state and `none` to continue,
or the reason the loop stops. -/
def processEntry (env : Option Str) (st : RunSt) (e : Entry) (oc : ExecOutcome) :
    RunSt × Option StopReason :=
  let log1 := st.log ++ [startMsg e]
  let _user := resolveEsxiUser env
  let log2 := if driveTypes.contains e.driveType then log1 else log1 ++ [unsupportedMsg]
  match stepDrive e oc with
  | (msgs, .error ex) => (⟨st.servers, log2 ++ msgs⟩, some (.raised ex))
  | (msgs, .ok (data, status)) =>
    let log3 := log2 ++ msgs
    let servers1 :=
      if (alLookup (serverKey e) st.servers).isSome then st.servers
      else st.servers ++ [(serverKey e, [])]
    if status = "OK".toList then
      (⟨alAppendRec (serverKey e) data servers1, log3 ++ [successMsg e]⟩, none)
    else
      (⟨servers1, log3 ++ [failedMsg e]⟩, some .brokeOut)

/-- The main loop over the inventory rows, each row paired with the
outcome of its remote command.  Rows after a `break` or an uncaught
exception are not processed. -/
def runLoop (env : Option Str) (st : RunSt) :
    List (Entry × ExecOutcome) → RunSt × StopReason
  | [] => (st, .finished)
  | (e, oc) :: rest =>
    let p := processEntry env st e oc
    match p.2 with
    | none => runLoop env p.1 rest
    | some r => (p.1, r)

/-- Total number of Drive Health Records in the Server Collection. -/
def recordCount (servers : List (Str × List SmartData)) : Nat :=
  (servers.map (fun p => p.2.length)).sum

/-! ## Library lemmas about the embedded primitives -/

theorem alLookup_alInsert_self {α : Type} (k : Str) (v : α) (m : List (Str × α)) :
    alLookup k (alInsert k v m) = some v := by
  induction m with
  | nil => simp [alInsert, alLookup]
  | cons p rest ih =>
    obtain ⟨k', v'⟩ := p
    by_cases h : k' = k
    · simp [alInsert, alLookup, h]
    · simp [alInsert, alLookup, h, ih]

theorem alLookup_alInsert_ne {α : Type} (k k' : Str) (v : α) (m : List (Str × α))
    (h : k ≠ k') : alLookup k' (alInsert k v m) = alLookup k' m := by
  induction m with
  | nil => simp [alInsert, alLookup, h]
  | cons p rest ih =>
    obtain ⟨k0, v0⟩ := p
    by_cases h0 : k0 = k
    · subst h0
      simp [alInsert, alLookup, h]
    · simp [alInsert, alLookup, h0, ih]

theorem alLookup_append_fresh (k : Str) (m : List (Str × List SmartData))
    (h : alLookup k m = none) : alLookup k (m ++ [(k, [])]) = some [] := by
  induction m with
  | nil => simp [alLookup]
  | cons p rest ih =>
    obtain ⟨k0, v0⟩ := p
    by_cases h0 : k0 = k
    · simp [alLookup, h0] at h
    · simp [alLookup, h0] at h ⊢
      exact ih h

theorem exceptBind_ok {α β : Type} {x : Except PyError α} {f : α → Except PyError β} {b : β} :
    (x >>= f) = .ok b ↔ ∃ a, x = .ok a ∧ f a = .ok b := by
  cases x <;> simp [Bind.bind, Except.bind]

/-- No NVME branch stores under the `Health Status` key. -/
theorem nvmeLineAction_key_ne_health (parts : List Str) (k : Str) (v : Value)
    (h : nvmeLineAction parts = .ok (some (k, v))) : k ≠ healthKey := by
  unfold nvmeLineAction at h
  split at h
  next => simp at h
  next f hf =>
    split at h
    next => simp at h
    next v0 hi =>
      split at h
      next => simp at h
      next w hc =>
        simp only [Except.ok.injEq, Option.some.injEq, Prod.mk.injEq] at h
        obtain ⟨hk, hv⟩ := h
        rw [← hk]
        have hmem : f ∈ nvmeFields := List.mem_of_find?_eq_some hf
        fin_cases hmem <;> decide

/-- One NVME parsing step never changes the `Health Status` entry. -/
theorem nvmeProcessLine_health (r : SmartData) (l : Str) (r' : SmartData)
    (h : nvmeProcessLine r l = .ok r') :
    alLookup healthKey r' = alLookup healthKey r := by
  unfold nvmeProcessLine at h
  cases heq : nvmeLineAction (pySplitOn ':' (pyStripWs l)) with
  | error ex => rw [heq] at h; cases h
  | ok o =>
    rw [heq] at h
    cases o with
    | none =>
      injection h with h2
      rw [← h2]
    | some kv =>
      obtain ⟨k, v⟩ := kv
      injection h with h2
      rw [← h2]
      exact alLookup_alInsert_ne k healthKey v r (nvmeLineAction_key_ne_health _ _ _ heq)

/-- The NVME per-line loop never changes the `Health Status` entry. -/
theorem foldlM_nvme_health (lines : List Str) :
    ∀ (r r' : SmartData), List.foldlM nvmeProcessLine r lines = .ok r' →
      alLookup healthKey r' = alLookup healthKey r := by
  induction lines with
  | nil =>
    intro r r' h
    simp only [List.foldlM_nil] at h
    injection h with h2
    rw [← h2]
  | cons l ls ih =>
    intro r r' h
    rw [List.foldlM_cons, exceptBind_ok] at h
    obtain ⟨r1, h1, h2⟩ := h
    rw [ih r1 r' h2, nvmeProcessLine_health r l r1 h1]

theorem baseRecord_health (e : Entry) :
    alLookup healthKey (baseRecord e) = some (Value.str "OK".toList) := by
  unfold baseRecord
  exact alLookup_alInsert_self healthKey _ _

/-- C1: for every NVME raw-output line sequence in which both the
available-spare and threshold percentages were parsed (that is, the
parse finished and the record holds integer values for both keys), the
finished record has `Health Status = "Not OK"` exactly when the spare
percentage is at most the threshold percentage, and keeps the default
`"OK"` otherwise. -/
theorem c1_nvme_health_verdict (e : Entry) (lines : List Str) (res : SmartData)
    (s t : Int)
    (hok : nvmeParse (baseRecord e) lines = .ok res)
    (hs : alLookup spareKey res = some (Value.int s))
    (ht : alLookup thresholdKey res = some (Value.int t)) :
    (alLookup healthKey res = some (Value.str "Not OK".toList) ↔ s ≤ t)
    ∧ (¬ s ≤ t → alLookup healthKey res = some (Value.str "OK".toList)) := by
  unfold nvmeParse at hok
  rw [exceptBind_ok] at hok
  obtain ⟨r, hfold, hfin⟩ := hok
  cases hsp : alLookup spareKey r with
  | none => rw [hsp] at hfin; cases hfin
  | some vs =>
    cases hth : alLookup thresholdKey r with
    | none =>
      rw [hsp, hth] at hfin
      cases vs <;> cases hfin
    | some vt =>
      rw [hsp, hth] at hfin
      cases vs with
      | str sv => cases vt <;> cases hfin
      | int a =>
        cases vt with
        | str tv => cases hfin
        | int b =>
          injection hfin with hrec
          by_cases hab : a ≤ b
          · rw [if_pos hab] at hrec
            subst hrec
            have hsp' : alLookup spareKey (alInsert healthKey (Value.str "Not OK".toList) r)
                = some (Value.int a) := by
              rw [alLookup_alInsert_ne healthKey spareKey _ _ (by decide)]
              exact hsp
            have hth' : alLookup thresholdKey (alInsert healthKey (Value.str "Not OK".toList) r)
                = some (Value.int b) := by
              rw [alLookup_alInsert_ne healthKey thresholdKey _ _ (by decide)]
              exact hth
            rw [hsp'] at hs
            rw [hth'] at ht
            injection hs with hs1; injection hs1 with hs2
            injection ht with ht1; injection ht1 with ht2
            subst hs2; subst ht2
            constructor
            · constructor
              · intro _; exact hab
              · intro _; exact alLookup_alInsert_self _ _ _
            · intro hns; exact absurd hab hns
          · rw [if_neg hab] at hrec
            subst hrec
            rw [hsp] at hs
            rw [hth] at ht
            injection hs with hs1; injection hs1 with hs2
            injection ht with ht1; injection ht1 with ht2
            subst hs2; subst ht2
            have hh : alLookup healthKey r = some (Value.str "OK".toList) := by
              rw [foldlM_nvme_health lines _ _ hfold]
              exact baseRecord_health e
            constructor
            · rw [hh]
              constructor
              · intro hcon
                injection hcon with hc1
                cases hc1
              · intro hst; exact absurd hst hab
            · intro _; exact hh

/-- Witness for C1 at a concrete input: spare 5, threshold 10 yields
`Not OK`. -/
theorem c1_nvme_health_verdict_witness :
    (alLookup healthKey
        [("Drive Type".toList, Value.str "NVME".toList),
         ("Drive Name".toList, Value.str "vmhba0".toList),
         (healthKey, Value.str "Not OK".toList),
         (spareKey, Value.int 5), (thresholdKey, Value.int 10)]
      = some (Value.str "Not OK".toList) ↔ (5 : Int) ≤ 10)
    ∧ (¬ (5 : Int) ≤ 10 →
        alLookup healthKey
          [("Drive Type".toList, Value.str "NVME".toList),
           ("Drive Name".toList, Value.str "vmhba0".toList),
           (healthKey, Value.str "Not OK".toList),
           (spareKey, Value.int 5), (thresholdKey, Value.int 10)]
        = some (Value.str "OK".toList)) :=
  c1_nvme_health_verdict
    ⟨"s1".toList, "h1".toList, "NVME".toList, "vmhba0".toList⟩
    ["Available Spare: 5%".toList, "Available Spare Threshold: 10%".toList]
    _ 5 10 (by decide) (by decide) (by decide)

/-- C2: the claim states that parsing never raises and that missing
expected fields (in particular `Available Spare` absent from NVME
output) do not crash.  The code contradicts this: with no output
lines, the health comparison on line 151 of `main.py` looks up
`Available Spare (%)` in a dictionary without that key and raises
`KeyError`.  This theorem evaluates the embedded code at that failing
input. -/
theorem c2_missing_spare_keyerror :
    nvmeParse (baseRecord ⟨"s1".toList, "h1".toList, "NVME".toList, "vmhba0".toList⟩) []
      = .error (.keyError spareKey) := by
  decide

/-- C8: the claim states that an unset `ESXI_USER` yields the default
username `root`.  The code contradicts this: because line 94 of
`main.py` compares with `is not` (object identity), the branch is
always taken and an unset variable makes the username `None`, never
`root`.  A set variable is passed through unchanged, as the claim
says. -/
theorem c8_default_user_bug :
    resolveEsxiUser none = none
    ∧ resolveEsxiUser none ≠ some "root".toList
    ∧ ∀ s, resolveEsxiUser (some s) = some s := by
  refine ⟨rfl, by decide, fun s => rfl⟩

/-- C9: `esxi_command` returns `None` after logging the error whenever
an exception is raised during connection, authentication or command
execution, and returns the stdout lines paired with the status `OK`
for a run that completes without an exception. -/
theorem c9_esxi_command_contract :
    (∀ m, esxi_command (.failure m) = (none, [m]))
    ∧ (∀ lines, esxi_command (.success lines) = (some (lines, "OK".toList), [])) :=
  ⟨fun m => rfl, fun lines => rfl⟩

/-- C3 counterexample: on the claim's own example line
`"Health Status: OK N/A N/A"` the code stores `":"`, not the
device-reported state `"OK"`, because `line.strip(label)` strips the
character set of the label and stops at the colon, which is not a
character of `"Health Status"`. -/
theorem c3_counterexample :
    parseSmartLines sataFields
        (baseRecord ⟨"s1".toList, "h1".toList, "SATA".toList, "d1".toList⟩)
        ["Health Status: OK N/A N/A".toList]
      = .ok (alInsert healthKey (Value.str ":".toList)
          (baseRecord ⟨"s1".toList, "h1".toList, "SATA".toList, "d1".toList⟩))
    ∧ Value.str ":".toList ≠ Value.str "OK".toList := by
  exact ⟨by decide, by decide⟩

/-- C10 counterexample: one NVME inventory row whose remote command
fails, with its composite server key not yet present.  The run stops
(with the `TypeError` raised by `output[1]`) BEFORE reaching the
server-key insertion on lines 237-239 of `main.py`, so the key is not
inserted, contradicting the claim. -/
theorem c10_counterexample :
    runLoop none ⟨[], []⟩
        [(⟨"s1".toList, "h1".toList, "NVME".toList, "d1".toList⟩, .failure "auth failed".toList)]
      = (⟨[], [startMsg ⟨"s1".toList, "h1".toList, "NVME".toList, "d1".toList⟩,
              "auth failed".toList]⟩, .raised .typeError)
    ∧ alLookup (serverKey ⟨"s1".toList, "h1".toList, "NVME".toList, "d1".toList⟩)
        (runLoop none ⟨[], []⟩
          [(⟨"s1".toList, "h1".toList, "NVME".toList, "d1".toList⟩,
            .failure "auth failed".toList)]).1.servers
      = none := by
  exact ⟨by decide, by decide⟩

/-! ## Lemmas about the main loop -/

theorem runLoop_cons_continue (env : Option Str) (st : RunSt) (e : Entry)
    (oc : ExecOutcome) (rest : List (Entry × ExecOutcome))
    (h : (processEntry env st e oc).2 = none) :
    runLoop env st ((e, oc) :: rest) = runLoop env (processEntry env st e oc).1 rest := by
  simp [runLoop, h]

theorem runLoop_cons_stop (env : Option Str) (st : RunSt) (e : Entry)
    (oc : ExecOutcome) (rest : List (Entry × ExecOutcome)) (r : StopReason)
    (h : (processEntry env st e oc).2 = some r) :
    runLoop env st ((e, oc) :: rest) = ((processEntry env st e oc).1, r) := by
  simp [runLoop, h]

/-- `processEntry` never reports a stop reason of `finished`. -/
theorem processEntry_stop_not_finished (env : Option Str) (st : RunSt) (e : Entry)
    (oc : ExecOutcome) : (processEntry env st e oc).2 ≠ some .finished := by
  unfold processEntry
  cases hsd : stepDrive e oc with
  | mk msgs res =>
    cases res with
    | error ex => simp
    | ok dp =>
      obtain ⟨data, status⟩ := dp
      dsimp only
      by_cases hok : status = "OK".toList
      · rw [if_pos hok]; simp
      · rw [if_neg hok]; simp

/-- A prefix that runs to completion can be split off the loop. -/
theorem runLoop_append_finished (env : Option Str) (pre : List (Entry × ExecOutcome)) :
    ∀ (st st1 : RunSt), runLoop env st pre = (st1, .finished) →
      ∀ rest, runLoop env st (pre ++ rest) = runLoop env st1 rest := by
  induction pre with
  | nil =>
    intro st st1 h rest
    simp only [runLoop] at h
    obtain ⟨h1, -⟩ := Prod.mk.injEq .. ▸ h
    rw [List.nil_append, h1]
  | cons p ps ih =>
    intro st st1 h rest
    obtain ⟨e, oc⟩ := p
    cases hsig : (processEntry env st e oc).2 with
    | none =>
      rw [runLoop_cons_continue env st e oc ps hsig] at h
      rw [List.cons_append, runLoop_cons_continue env st e oc (ps ++ rest) hsig]
      exact ih _ _ h rest
    | some r =>
      rw [runLoop_cons_stop env st e oc ps r hsig] at h
      obtain ⟨-, h2⟩ := Prod.mk.injEq .. ▸ h
      rw [h2] at hsig
      exact absurd hsig (processEntry_stop_not_finished env st e oc)

theorem stepDrive_failure (e : Entry) (m : Str)
    (h : driveTypes.contains e.driveType = true) :
    stepDrive e (.failure m) = ([m], .error .typeError) := by
  have h' : e.driveType = "NVME".toList ∨ e.driveType = "SATA".toList
      ∨ e.driveType = "DISK".toList := by
    simpa [driveTypes] using h
  rcases h' with h1 | h1 | h1 <;>
    simp [stepDrive, h1, esxi_command,
      show ("SATA".toList : Str) ≠ "NVME".toList from by decide,
      show ("DISK".toList : Str) ≠ "NVME".toList from by decide,
      show ("DISK".toList : Str) ≠ "SATA".toList from by decide]

theorem processEntry_failure (env : Option Str) (st : RunSt) (e : Entry) (m : Str)
    (h : driveTypes.contains e.driveType = true) :
    processEntry env st e (.failure m) =
      (⟨st.servers, st.log ++ [startMsg e, m]⟩, some (.raised .typeError)) := by
  unfold processEntry
  rw [stepDrive_failure e m h]
  have hmem : e.driveType ∈ driveTypes := by simpa using h
  simp [h, hmem]

theorem stepDrive_unsupported (e : Entry) (oc : ExecOutcome)
    (h : driveTypes.contains e.driveType = false) :
    stepDrive e oc = ([], .ok (baseRecord e, "Not OK".toList)) := by
  have h1 : e.driveType ≠ "NVME".toList := fun hh => by
    rw [hh] at h; exact absurd h (by decide)
  have h2 : e.driveType ≠ "SATA".toList := fun hh => by
    rw [hh] at h; exact absurd h (by decide)
  have h3 : e.driveType ≠ "DISK".toList := fun hh => by
    rw [hh] at h; exact absurd h (by decide)
  unfold stepDrive
  rw [if_neg h1, if_neg h2, if_neg h3]

theorem processEntry_unsupported (env : Option Str) (st : RunSt) (e : Entry)
    (oc : ExecOutcome) (h : driveTypes.contains e.driveType = false) :
    processEntry env st e oc =
      (⟨(if (alLookup (serverKey e) st.servers).isSome then st.servers
          else st.servers ++ [(serverKey e, [])]),
        st.log ++ [startMsg e, unsupportedMsg, failedMsg e]⟩, some .brokeOut) := by
  unfold processEntry
  rw [stepDrive_unsupported e oc h]
  have hmem : e.driveType ∉ driveTypes := by simpa using h
  simp [h, hmem, show ("Not OK".toList : Str) ≠ "OK".toList from by decide]

theorem recordCount_append_empty (xs : List (Str × List SmartData)) (k : Str) :
    recordCount (xs ++ [(k, [])]) = recordCount xs := by
  simp [recordCount]

theorem stepDrive_ok_success (e : Entry) (oc : ExecOutcome) (msgs : List Str)
    (data : SmartData) (status : Str)
    (h : stepDrive e oc = (msgs, .ok (data, status)))
    (hst : status = "OK".toList) : ∃ lines, oc = .success lines := by
  cases oc with
  | success lines => exact ⟨lines, rfl⟩
  | failure m =>
    exfalso
    cases hct : driveTypes.contains e.driveType with
    | true =>
      rw [stepDrive_failure e m hct] at h
      simp at h
    | false =>
      rw [stepDrive_unsupported e (.failure m) hct] at h
      simp only [Prod.mk.injEq, Except.ok.injEq] at h
      obtain ⟨-, -, hstat⟩ := h
      rw [hst] at hstat
      exact absurd hstat (by decide)

/-- C4: a Drive Health Record is appended to the Server Collection only
when the Remote Command Executor reported success for that drive (part
one: any growth of the collection requires a success outcome), and when
execution fails for a row with a recognized drive type the run stops at
that row with the failure message logged, the collection unchanged (so
that drive's record is absent), and the remaining rows unprocessed
(part two). -/
theorem c4_success_gate :
    (∀ env st e oc st2 sig, processEntry env st e oc = (st2, sig) →
        recordCount st.servers < recordCount st2.servers →
        ∃ lines, oc = ExecOutcome.success lines)
    ∧ (∀ env st pre st1 e m post,
        runLoop env st pre = (st1, .finished) →
        driveTypes.contains e.driveType = true →
        runLoop env st (pre ++ (e, ExecOutcome.failure m) :: post) =
          (⟨st1.servers, st1.log ++ [startMsg e, m]⟩, .raised .typeError)) := by
  constructor
  · intro env st e oc st2 sig h hlt
    unfold processEntry at h
    cases hsd : stepDrive e oc with
    | mk msgs res =>
      rw [hsd] at h
      cases res with
      | error ex =>
        simp only [Prod.mk.injEq] at h
        obtain ⟨h1, -⟩ := h
        rw [← h1] at hlt
        exact absurd hlt (lt_irrefl _)
      | ok dp =>
        obtain ⟨data, status⟩ := dp
        by_cases hok : status = "OK".toList
        · exact stepDrive_ok_success e oc msgs data status hsd hok
        · exfalso
          simp only [hok, if_false, Prod.mk.injEq] at h
          obtain ⟨h1, -⟩ := h
          rw [← h1] at hlt
          by_cases hp : (alLookup (serverKey e) st.servers).isSome
          · simp [hp] at hlt
          · simp [hp, recordCount_append_empty] at hlt
  · intro env st pre st1 e m post hfin hdt
    rw [runLoop_append_finished env pre st st1 hfin]
    rw [runLoop_cons_stop env st1 e (.failure m) post (.raised .typeError)
      (by rw [processEntry_failure env st1 e m hdt])]
    rw [processEntry_failure env st1 e m hdt]

/-- Witness for C4 at concrete inputs: part one applied to a
successful SATA row that appends a record, and part two applied to an
NVME row whose command fails, with one further row left unprocessed. -/
theorem c4_success_gate_witness :
    (∃ lines, ExecOutcome.success ([] : List Str) = ExecOutcome.success lines)
    ∧ runLoop none ⟨[], []⟩
        ([] ++ (⟨"s1".toList, "h1".toList, "NVME".toList, "d1".toList⟩,
                ExecOutcome.failure "boom".toList)
          :: [(⟨"s2".toList, "h2".toList, "SATA".toList, "d2".toList⟩,
               ExecOutcome.success [])]) =
      (⟨[], [] ++ [startMsg ⟨"s1".toList, "h1".toList, "NVME".toList, "d1".toList⟩,
                   "boom".toList]⟩, .raised .typeError) := by
  constructor
  · exact c4_success_gate.1 none ⟨[], []⟩
      ⟨"s2".toList, "h2".toList, "SATA".toList, "d2".toList⟩
      (ExecOutcome.success [])
      (processEntry none ⟨[], []⟩
        ⟨"s2".toList, "h2".toList, "SATA".toList, "d2".toList⟩
        (ExecOutcome.success [])).1
      (processEntry none ⟨[], []⟩
        ⟨"s2".toList, "h2".toList, "SATA".toList, "d2".toList⟩
        (ExecOutcome.success [])).2
      rfl (by decide)
  · exact c4_success_gate.2 none ⟨[], []⟩ [] ⟨[], []⟩
      ⟨"s1".toList, "h1".toList, "NVME".toList, "d1".toList⟩ "boom".toList
      [(⟨"s2".toList, "h2".toList, "SATA".toList, "d2".toList⟩, ExecOutcome.success [])]
      (by decide) (by decide)

/-- C7: for an inventory row whose drive type is not `NVME`, `SATA` or
`DISK`, no exception is raised: the record contains exactly the three
base attributes with `Health Status` initialized to `OK` and no
diagnostic attributes, the unsupported-drive-type message is logged,
and the row finishes without error (the loop then stops via the
status check, not via an exception). -/
theorem c7_unrecognized_drive_type (env : Option Str) (st : RunSt) (e : Entry)
    (oc : ExecOutcome) (h : driveTypes.contains e.driveType = false) :
    stepDrive e oc = ([], .ok (baseRecord e, "Not OK".toList))
    ∧ baseRecord e = [("Drive Type".toList, Value.str e.driveType),
        ("Drive Name".toList, Value.str e.driveName),
        (healthKey, Value.str "OK".toList)]
    ∧ (processEntry env st e oc).1.log = st.log ++ [startMsg e, unsupportedMsg, failedMsg e]
    ∧ (processEntry env st e oc).2 = some .brokeOut := by
  refine ⟨stepDrive_unsupported e oc h, rfl, ?_, ?_⟩
  · rw [processEntry_unsupported env st e oc h]
  · rw [processEntry_unsupported env st e oc h]

/-- Witness for C7: a concrete row with drive type `FOO`. -/
theorem c7_unrecognized_drive_type_witness :
    stepDrive ⟨"s1".toList, "h1".toList, "FOO".toList, "d1".toList⟩ (.success [])
      = ([], .ok (baseRecord ⟨"s1".toList, "h1".toList, "FOO".toList, "d1".toList⟩,
                  "Not OK".toList))
    ∧ baseRecord ⟨"s1".toList, "h1".toList, "FOO".toList, "d1".toList⟩
      = [("Drive Type".toList, Value.str "FOO".toList),
         ("Drive Name".toList, Value.str "d1".toList),
         (healthKey, Value.str "OK".toList)]
    ∧ (processEntry none ⟨[], []⟩ ⟨"s1".toList, "h1".toList, "FOO".toList, "d1".toList⟩
        (.success [])).1.log
      = [] ++ [startMsg ⟨"s1".toList, "h1".toList, "FOO".toList, "d1".toList⟩,
               unsupportedMsg,
               failedMsg ⟨"s1".toList, "h1".toList, "FOO".toList, "d1".toList⟩]
    ∧ (processEntry none ⟨[], []⟩ ⟨"s1".toList, "h1".toList, "FOO".toList, "d1".toList⟩
        (.success [])).2 = some .brokeOut :=
  c7_unrecognized_drive_type none ⟨[], []⟩
    ⟨"s1".toList, "h1".toList, "FOO".toList, "d1".toList⟩ (.success []) (by decide)

/-- C10 amended: the append-check status is not `OK` only for rows with
an unrecognized drive type (a failed remote command raises before the
insertion point, see the counterexample); for such a row with a fresh
composite key, the key IS inserted mapped to the empty sequence before
the loop stops, so the Server Collection can end a run containing a
server key with an empty record sequence. -/
theorem c10_amended_empty_key (env : Option Str) (st : RunSt) (e : Entry)
    (oc : ExecOutcome) (post : List (Entry × ExecOutcome))
    (h : driveTypes.contains e.driveType = false)
    (hfresh : alLookup (serverKey e) st.servers = none) :
    runLoop env st ((e, oc) :: post) =
      (⟨st.servers ++ [(serverKey e, [])],
        st.log ++ [startMsg e, unsupportedMsg, failedMsg e]⟩, .brokeOut)
    ∧ alLookup (serverKey e) (runLoop env st ((e, oc) :: post)).1.servers = some [] := by
  have hpe := processEntry_unsupported env st e oc h
  simp only [hfresh, Option.isSome_none, Bool.false_eq_true, if_false] at hpe
  have hrun : runLoop env st ((e, oc) :: post) =
      (⟨st.servers ++ [(serverKey e, [])],
        st.log ++ [startMsg e, unsupportedMsg, failedMsg e]⟩, .brokeOut) := by
    rw [runLoop_cons_stop env st e oc post .brokeOut (by rw [hpe]), hpe]
  refine ⟨hrun, ?_⟩
  rw [hrun]
  exact alLookup_append_fresh (serverKey e) st.servers hfresh

/-- Witness for C10 amended: a concrete unrecognized-type row with a
fresh key leaves the key mapped to the empty record sequence. -/
theorem c10_amended_empty_key_witness :
    runLoop none ⟨[], []⟩
        [(⟨"s1".toList, "h1".toList, "FOO".toList, "d1".toList⟩, .success [])] =
      (⟨[] ++ [(serverKey ⟨"s1".toList, "h1".toList, "FOO".toList, "d1".toList⟩, [])],
        [] ++ [startMsg ⟨"s1".toList, "h1".toList, "FOO".toList, "d1".toList⟩,
               unsupportedMsg,
               failedMsg ⟨"s1".toList, "h1".toList, "FOO".toList, "d1".toList⟩]⟩, .brokeOut)
    ∧ alLookup (serverKey ⟨"s1".toList, "h1".toList, "FOO".toList, "d1".toList⟩)
        (runLoop none ⟨[], []⟩
          [(⟨"s1".toList, "h1".toList, "FOO".toList, "d1".toList⟩,
            .success [])]).1.servers = some [] :=
  c10_amended_empty_key none ⟨[], []⟩
    ⟨"s1".toList, "h1".toList, "FOO".toList, "d1".toList⟩ (.success []) []
    (by decide) (by decide)

/-! ## String lemmas for the general NVME line theorems -/

theorem dropWhile_cons_neg (f : Char → Bool) (c : Char) (cs : Str) (h : f c = false) :
    (c :: cs).dropWhile f = c :: cs := by
  simp [List.dropWhile_cons, h]

theorem stripBoth_cons_concat (f : Char → Bool) (c d : Char) (mid : Str)
    (hc : f c = false) (hd : f d = false) :
    stripBoth f (c :: (mid ++ [d])) = c :: (mid ++ [d]) := by
  unfold stripBoth
  rw [dropWhile_cons_neg f c _ hc]
  rw [show (c :: (mid ++ [d])).reverse = d :: (mid.reverse ++ [c]) by simp]
  rw [dropWhile_cons_neg f d _ hd]
  simp

theorem stripBoth_singleton (f : Char → Bool) (c : Char) (hc : f c = false) :
    stripBoth f [c] = [c] := by
  unfold stripBoth
  rw [dropWhile_cons_neg f c [] hc]
  simp [dropWhile_cons_neg f c [] hc]

theorem stripBoth_ws_cons (f : Char → Bool) (c : Char) (cs : Str) (h : f c = true) :
    stripBoth f (c :: cs) = stripBoth f cs := by
  unfold stripBoth
  rw [List.dropWhile_cons, h]
  simp

theorem pySplitOn_cons (sep c : Char) (cs : Str) :
    pySplitOn sep (c :: cs) =
      match pySplitOn sep cs with
      | [] => [[]]
      | t :: ts => if c = sep then [] :: t :: ts else (c :: t) :: ts := rfl

theorem pySplitOn_ne_nil (sep : Char) (s : Str) : pySplitOn sep s ≠ [] := by
  induction s with
  | nil => simp [pySplitOn]
  | cons c cs ih =>
    rw [pySplitOn_cons]
    cases h : pySplitOn sep cs with
    | nil => simp
    | cons t ts => by_cases hc : c = sep <;> simp [hc]

theorem pySplitOn_no_sep (sep : Char) (a : Str) (h : ∀ c ∈ a, c ≠ sep) :
    pySplitOn sep a = [a] := by
  induction a with
  | nil => rfl
  | cons c cs ih =>
    rw [pySplitOn_cons, ih (fun x hx => h x (List.mem_cons_of_mem c hx))]
    simp [h c (List.mem_cons_self c cs)]

theorem pySplitOn_sep_head (sep : Char) (b : Str) :
    pySplitOn sep (sep :: b) = [] :: pySplitOn sep b := by
  rw [pySplitOn_cons]
  cases h : pySplitOn sep b with
  | nil => exact absurd h (pySplitOn_ne_nil sep b)
  | cons t ts => simp

theorem pySplitOn_append_left (sep : Char) (a b : Str) (t : Str) (ts : List Str)
    (ha : ∀ c ∈ a, c ≠ sep) (hb : pySplitOn sep b = t :: ts) :
    pySplitOn sep (a ++ b) = (a ++ t) :: ts := by
  induction a with
  | nil => simpa using hb
  | cons c cs ih =>
    have hcs := ih (fun x hx => ha x (List.mem_cons_of_mem c hx))
    rw [List.cons_append, pySplitOn_cons, hcs]
    simp [ha c (List.mem_cons_self c cs)]

theorem pySplitWsAux_cons (acc : Str) (c : Char) (cs : Str) :
    pySplitWsAux acc (c :: cs) =
      if isPyWs c then
        (if acc = [] then pySplitWsAux [] cs else acc.reverse :: pySplitWsAux [] cs)
      else pySplitWsAux (c :: acc) cs := rfl

theorem pySplitWsAux_nil_arg (acc : Str) :
    pySplitWsAux acc [] = if acc = [] then [] else [acc.reverse] := rfl

theorem pySplitWsAux_nonws (a : Str) :
    ∀ (acc rest : Str), (∀ c ∈ a, isPyWs c = false) →
      pySplitWsAux acc (a ++ rest) = pySplitWsAux (a.reverse ++ acc) rest := by
  induction a with
  | nil => intro acc rest _; simp
  | cons c cs ih =>
    intro acc rest h
    rw [List.cons_append, pySplitWsAux_cons, h c (List.mem_cons_self c cs)]
    rw [ih (c :: acc) rest (fun x hx => h x (List.mem_cons_of_mem c hx))]
    simp

theorem pySplitWsAux_ws_flush (acc : Str) (c : Char) (rest : Str)
    (h : isPyWs c = true) (hacc : acc ≠ []) :
    pySplitWsAux acc (c :: rest) = acc.reverse :: pySplitWsAux [] rest := by
  rw [pySplitWsAux_cons, h]
  simp [hacc]

theorem pySplitWsAux_ws_skip (c : Char) (rest : Str) (h : isPyWs c = true) :
    pySplitWsAux [] (c :: rest) = pySplitWsAux [] rest := by
  rw [pySplitWsAux_cons, h]
  simp

theorem hexDigit_not_ws (c : Char) (h : isHexDigit c = true) : isPyWs c = false := by
  by_contra hw
  have hw' : isPyWs c = true := by
    cases hcc : isPyWs c
    · exact absurd hcc hw
    · rfl
  simp only [isPyWs, Bool.or_eq_true, decide_eq_true_eq] at hw'
  rcases hw' with ((((h1 | h2) | h3) | h4) | h5) | h6 <;>
    (subst_vars; exact absurd h (by decide))

theorem hexDigit_ne (c x : Char) (h : isHexDigit c = true) (hx : isHexDigit x = false) :
    c ≠ x := by
  intro hh
  rw [hh] at h
  rw [h] at hx
  cases hx

theorem splitSign_cons (c : Char) (r : Str) :
    splitSign (c :: r) =
      if c = '-' then (-1, r) else if c = '+' then (1, r) else (1, c :: r) := rfl

/-- `int(d, 16)` on a nonempty string of hexadecimal digits. -/
theorem pyIntBase16_hex (d : Str) (hne : d ≠ [])
    (hall : ∀ c ∈ d, isHexDigit c = true) :
    pyIntBase16 d = some ((ofHexDigits d : Nat) : Int) := by
  obtain ⟨c0, d0, rfl⟩ := List.exists_cons_of_ne_nil hne
  have hc0 : isHexDigit c0 = true := hall c0 (List.mem_cons_self c0 d0)
  have hstrip : pyStripWs (c0 :: d0) = c0 :: d0 := by
    rcases List.eq_nil_or_concat d0 with rfl | ⟨dm, dl, hd0⟩
    · exact stripBoth_singleton isPyWs c0 (hexDigit_not_ws c0 hc0)
    · have hd0' : d0 = dm ++ [dl] := by simpa [List.concat_eq_append] using hd0
      subst hd0'
      exact stripBoth_cons_concat isPyWs c0 dl dm (hexDigit_not_ws c0 hc0)
        (hexDigit_not_ws dl (hall dl (by simp)))
  have hsign : splitSign (c0 :: d0) = (1, c0 :: d0) := by
    rw [splitSign_cons, if_neg (hexDigit_ne c0 '-' hc0 (by decide)),
        if_neg (hexDigit_ne c0 '+' hc0 (by decide))]
  have hpfx : strip0x (c0 :: d0) = c0 :: d0 := by
    cases d0 with
    | nil => rfl
    | cons c1 d1 =>
      have hx : c1 ≠ 'x' := hexDigit_ne c1 'x' (hall c1 (by simp)) (by decide)
      have hX : c1 ≠ 'X' := hexDigit_ne c1 'X' (hall c1 (by simp)) (by decide)
      dsimp only [strip0x]
      simp [hx, hX]
  have hcond : (decide ((c0 :: d0) ≠ []) && List.all (c0 :: d0) isHexDigit) = true := by
    have h1 : List.all (c0 :: d0) isHexDigit = true := by
      rw [List.all_eq_true]
      exact fun x hx => hall x hx
    simp [h1]
  unfold pyIntBase16
  rw [hstrip]
  dsimp only
  rw [hsign]
  dsimp only
  rw [hpfx, if_pos hcond]
  simp

/-- Core computation for the hexadecimal NVME branches on a line of the
canonical shape `<key>: 0x<digits>`. -/
theorem nvmeProcessLine_hex_core (c0 : Char) (kr : Str) (r : SmartData)
    (dm : Str) (dl : Char)
    (hall : ∀ c ∈ dm ++ [dl], isHexDigit c = true)
    (hc0 : isPyWs c0 = false)
    (hkcol : ∀ c ∈ c0 :: kr, c ≠ ':')
    (hfind : nvmeFields.find? (fun f => decide (c0 :: kr = f.key))
      = some ⟨c0 :: kr, c0 :: kr, hexValue⟩) :
    nvmeProcessLine r ((c0 :: kr) ++ ':' :: ' ' :: '0' :: 'x' :: (dm ++ [dl]))
      = .ok (alInsert (c0 :: kr) (Value.int (ofHexDigits (dm ++ [dl]))) r) := by
  have hdl_hex : isHexDigit dl = true := hall dl (by simp)
  have hdlws : isPyWs dl = false := hexDigit_not_ws dl hdl_hex
  have hline : ((c0 :: kr) ++ ':' :: ' ' :: '0' :: 'x' :: (dm ++ [dl]) : Str)
      = c0 :: ((kr ++ ':' :: ' ' :: '0' :: 'x' :: dm) ++ [dl]) := by
    simp
  have hstrip : pyStripWs ((c0 :: kr) ++ ':' :: ' ' :: '0' :: 'x' :: (dm ++ [dl]))
      = (c0 :: kr) ++ ':' :: ' ' :: '0' :: 'x' :: (dm ++ [dl]) := by
    rw [hline]
    unfold pyStripWs
    exact stripBoth_cons_concat isPyWs c0 dl _ hc0 hdlws
  have hv_nosep : ∀ c ∈ (' ' :: '0' :: 'x' :: (dm ++ [dl]) : Str), c ≠ ':' := by
    intro c hc
    simp only [List.mem_cons] at hc
    rcases hc with rfl | rfl | rfl | hmem
    · decide
    · decide
    · decide
    · exact hexDigit_ne c ':' (hall c hmem) (by decide)
  have hsplit : pySplitOn ':'
      ((c0 :: kr) ++ ':' :: ' ' :: '0' :: 'x' :: (dm ++ [dl]))
      = [c0 :: kr, ' ' :: '0' :: 'x' :: (dm ++ [dl])] := by
    have h1 : pySplitOn ':' (':' :: ' ' :: '0' :: 'x' :: (dm ++ [dl]))
        = [] :: pySplitOn ':' (' ' :: '0' :: 'x' :: (dm ++ [dl])) :=
      pySplitOn_sep_head ':' _
    rw [pySplitOn_no_sep ':' _ hv_nosep] at h1
    have h2 := pySplitOn_append_left ':' (c0 :: kr) _ [] [' ' :: '0' :: 'x' :: (dm ++ [dl])]
      hkcol h1
    simpa using h2
  have hhex : hexValue (' ' :: '0' :: 'x' :: (dm ++ [dl]))
      = .ok (Value.int (ofHexDigits (dm ++ [dl]))) := by
    have hstripv : pyStripWs (' ' :: '0' :: 'x' :: (dm ++ [dl]))
        = '0' :: 'x' :: (dm ++ [dl]) := by
      unfold pyStripWs
      rw [stripBoth_ws_cons isPyWs ' ' _ (by decide)]
      rw [show ('0' :: 'x' :: (dm ++ [dl]) : Str) = '0' :: (('x' :: dm) ++ [dl]) by simp]
      rw [stripBoth_cons_concat isPyWs '0' dl ('x' :: dm) (by decide) hdlws]
    unfold hexValue
    rw [hstripv]
    have hdrop : (('0' :: 'x' :: (dm ++ [dl]) : Str)).drop 2 = dm ++ [dl] := rfl
    rw [hdrop]
    rw [pyIntBase16_hex (dm ++ [dl]) (by simp) hall]
  unfold nvmeProcessLine
  rw [hstrip, hsplit]
  unfold nvmeLineAction
  simp only [List.headI]
  rw [hfind]
  dsimp only
  rw [show item1 [c0 :: kr, ' ' :: '0' :: 'x' :: (dm ++ [dl])]
      = Except.ok (' ' :: '0' :: 'x' :: (dm ++ [dl])) from rfl]
  dsimp only
  rw [hhex]

/-- C6: for every NVME line whose key is `Unsafe Shutdowns`,
`Media Errors` or `Number of Error Info Log Entries` and whose value is
a `0x`-prefixed string of hexadecimal digits, the parser strips the
`0x` tag and stores the base-16 integer value under the original
key. -/
theorem c6_hex_fields (key : Str) (r : SmartData) (d : Str)
    (hk : key ∈ ["Unsafe Shutdowns".toList, "Media Errors".toList,
                 "Number of Error Info Log Entries".toList])
    (hne : d ≠ []) (hall : ∀ c ∈ d, isHexDigit c = true) :
    nvmeProcessLine r (key ++ ": 0x".toList ++ d)
      = .ok (alInsert key (Value.int (ofHexDigits d)) r) := by
  obtain ⟨dm, dl, hd⟩ : ∃ dm dl, d = dm ++ [dl] := by
    rcases List.eq_nil_or_concat d with rfl | ⟨dm, dl, hd⟩
    · exact absurd rfl hne
    · exact ⟨dm, dl, by simpa [List.concat_eq_append] using hd⟩
  subst hd
  simp only [List.mem_cons, List.not_mem_nil, or_false] at hk
  have hline : ∀ k : Str, (k ++ ": 0x".toList ++ (dm ++ [dl]) : Str)
      = k ++ ':' :: ' ' :: '0' :: 'x' :: (dm ++ [dl]) := by
    intro k
    simp
  rcases hk with rfl | rfl | rfl
  · rw [hline]
    exact nvmeProcessLine_hex_core 'U' "nsafe Shutdowns".toList r dm dl hall
      (by decide) (by decide) (by rfl)
  · rw [hline]
    exact nvmeProcessLine_hex_core 'M' "edia Errors".toList r dm dl hall
      (by decide) (by decide) (by rfl)
  · rw [hline]
    exact nvmeProcessLine_hex_core 'N' "umber of Error Info Log Entries".toList r dm dl hall
      (by decide) (by decide) (by rfl)

/-- Witness for C6: the value `0x1a` of a `Media Errors` line is stored
as the integer 26. -/
theorem c6_hex_fields_witness :
    nvmeProcessLine [] ("Media Errors".toList ++ ": 0x".toList ++ "1a".toList)
      = .ok (alInsert "Media Errors".toList (Value.int 26) []) := by
  have h := c6_hex_fields "Media Errors".toList [] "1a".toList
    (by decide) (by decide) (by decide)
  rw [show ((ofHexDigits "1a".toList : Nat) : Int) = 26 from by decide] at h
  exact h

/-- C5: for every NVME `Composite Temperature` line whose value is a
floating-point Kelvin reading followed by the unit `K`, the record
stores under `Drive Temperature (Celcius)` the integer
`round(value - 273.15)` (floats modelled as exact rationals, `round`
as round-half-to-even). -/
theorem c5_kelvin_to_celsius (r : SmartData) (fstr : Str) (q : Frac)
    (hne : fstr ≠ [])
    (hchars : ∀ c ∈ fstr, isPyWs c = false ∧ c ≠ ':')
    (hq : pyFloat fstr = some q) :
    nvmeProcessLine r ("Composite Temperature: ".toList ++ fstr ++ " K".toList)
      = .ok (alInsert celciusKey (Value.int (pyRound (fracSub q k27315))) r) := by
  have hline : ("Composite Temperature: ".toList ++ fstr ++ " K".toList : Str)
      = "Composite Temperature".toList ++ ':' :: (' ' :: (fstr ++ [' ', 'K'])) := by
    simp
  rw [hline]
  have hstrip : pyStripWs
      ("Composite Temperature".toList ++ ':' :: (' ' :: (fstr ++ [' ', 'K'])))
      = "Composite Temperature".toList ++ ':' :: (' ' :: (fstr ++ [' ', 'K'])) := by
    rw [show ("Composite Temperature".toList ++ ':' :: (' ' :: (fstr ++ [' ', 'K'])) : Str)
        = 'C' :: (("omposite Temperature".toList ++ ':' :: ' ' :: fstr ++ [' ']) ++ ['K'])
      by simp]
    unfold pyStripWs
    rw [stripBoth_cons_concat isPyWs 'C' 'K' _ (by decide) (by decide)]
  have hv_nosep : ∀ c ∈ (' ' :: (fstr ++ [' ', 'K']) : Str), c ≠ ':' := by
    intro c hc
    simp only [List.mem_cons, List.mem_append, List.not_mem_nil, or_false] at hc
    rcases hc with rfl | hmem | rfl | rfl
    · decide
    · exact (hchars c hmem).2
    · decide
    · decide
  have hsplit : pySplitOn ':'
      ("Composite Temperature".toList ++ ':' :: (' ' :: (fstr ++ [' ', 'K'])))
      = ["Composite Temperature".toList, ' ' :: (fstr ++ [' ', 'K'])] := by
    have h1 : pySplitOn ':' (':' :: (' ' :: (fstr ++ [' ', 'K'])))
        = [] :: pySplitOn ':' (' ' :: (fstr ++ [' ', 'K'])) :=
      pySplitOn_sep_head ':' _
    rw [pySplitOn_no_sep ':' _ hv_nosep] at h1
    have h2 := pySplitOn_append_left ':' "Composite Temperature".toList _ []
      [' ' :: (fstr ++ [' ', 'K'])] (by decide) h1
    simpa using h2
  have hsplitws : pySplitWs (' ' :: (fstr ++ [' ', 'K'])) = [fstr, ['K']] := by
    unfold pySplitWs
    rw [pySplitWsAux_ws_skip ' ' _ (by decide)]
    rw [show (fstr ++ [' ', 'K'] : Str) = fstr ++ (' ' :: ['K']) from rfl]
    rw [pySplitWsAux_nonws fstr [] (' ' :: ['K']) (fun c hc => (hchars c hc).1)]
    rw [pySplitWsAux_ws_flush (fstr.reverse ++ []) ' ' ['K'] (by decide) (by simp [hne])]
    rw [show pySplitWsAux [] ['K'] = [['K']] from by decide]
    simp
  have htok : firstTok (' ' :: (fstr ++ [' ', 'K'])) = .ok fstr := by
    unfold firstTok
    rw [hsplitws]
  have htemp : tempValue (' ' :: (fstr ++ [' ', 'K']))
      = .ok (Value.int (pyRound (fracSub q k27315))) := by
    unfold tempValue
    rw [htok]
    dsimp only
    rw [hq]
  unfold nvmeProcessLine
  rw [hstrip, hsplit]
  unfold nvmeLineAction
  simp only [List.headI]
  rw [show nvmeFields.find?
        (fun f => decide ("Composite Temperature".toList = f.key))
      = some ⟨"Composite Temperature".toList, celciusKey, tempValue⟩ from rfl]
  dsimp only
  rw [show item1 ["Composite Temperature".toList, ' ' :: (fstr ++ [' ', 'K'])]
      = Except.ok (' ' :: (fstr ++ [' ', 'K'])) from rfl]
  dsimp only
  rw [htemp]

/-- Witness for C5: the line `Composite Temperature: 300.15 K` stores
27 under `Drive Temperature (Celcius)`. -/
theorem c5_kelvin_to_celsius_witness :
    nvmeProcessLine [] ("Composite Temperature: ".toList ++ "300.15".toList ++ " K".toList)
      = .ok (alInsert celciusKey (Value.int 27) []) := by
  have h := c5_kelvin_to_celsius [] "300.15".toList ⟨30015, 100⟩
    (by decide) (by decide) (by decide)
  rw [show pyRound (fracSub ⟨30015, 100⟩ k27315) = 27 from by decide] at h
  exact h

/-- Fields whose keys avoid `K` leave the entry at `K` unchanged. -/
theorem foldFields_preserve (line : Str) (K : Str) :
    ∀ (fields : List SField) (r0 r : SmartData),
      (∀ f ∈ fields, f.key ≠ K) →
      fields.foldlM (applySmartField line) r0 = .ok r →
      alLookup K r = alLookup K r0 := by
  intro fields
  induction fields with
  | nil =>
    intro r0 r hk h
    simp only [List.foldlM_nil] at h
    injection h with h2
    rw [← h2]
  | cons g gs ih =>
    intro r0 r hk h
    rw [List.foldlM_cons, exceptBind_ok] at h
    obtain ⟨r1, h1, h2⟩ := h
    rw [ih r1 r (fun f hf => hk f (List.mem_cons_of_mem g hf)) h2]
    unfold applySmartField at h1
    by_cases hc : chContains g.label line = true
    · rw [if_pos hc] at h1
      cases htok : (pySplitWs (pyStripChars g.label line)).get? g.idx with
      | none => rw [htok] at h1; cases h1
      | some tok =>
        rw [htok] at h1
        injection h1 with h1e
        rw [← h1e]
        exact alLookup_alInsert_ne g.key K (Value.str tok) r0
          (hk g (List.mem_cons_self g gs))
    · rw [if_neg hc] at h1
      injection h1 with h1e
      rw [← h1e]

/-- The entry a matching field stores survives to the end of the field
loop when field keys are pairwise distinct. -/
theorem foldFields_found (line : Str) :
    ∀ (fields : List SField) (r0 r : SmartData) (f : SField) (tok : Str),
      fields.Pairwise (fun a b => a.key ≠ b.key) →
      f ∈ fields →
      fields.foldlM (applySmartField line) r0 = .ok r →
      chContains f.label line = true →
      (pySplitWs (pyStripChars f.label line)).get? f.idx = some tok →
      alLookup f.key r = some (Value.str tok) := by
  intro fields
  induction fields with
  | nil => intro r0 r f tok hd hf h hc htok; cases hf
  | cons g gs ih =>
    intro r0 r f tok hd hf h hc htok
    rw [List.foldlM_cons, exceptBind_ok] at h
    obtain ⟨r1, h1, h2⟩ := h
    rcases List.mem_cons.mp hf with hfg | hfgs
    · subst hfg
      unfold applySmartField at h1
      rw [if_pos hc, htok] at h1
      injection h1 with h1e
      have hkeys : ∀ p ∈ gs, p.key ≠ f.key := by
        intro p hp hpk
        exact ((List.pairwise_cons.mp hd).1 p hp) hpk.symm
      rw [foldFields_preserve line f.key gs r1 r hkeys h2, ← h1e]
      exact alLookup_alInsert_self f.key (Value.str tok) r0
    · exact ih r1 r f tok (List.pairwise_cons.mp hd).2 hfgs h2 hc htok

/-- C3 amended: for every SATA or DISK line containing a recognized
label, the stored value is computed by stripping from both ends of the
line every character occurring in the label (Python `str.strip`
character-set semantics, not substring removal), splitting the rest on
whitespace and taking the token at the field's position — index 3 (the
4th token) for every label except `Health Status`, which uses index 0
(the 1st token), as recorded in `sataFields` and `diskFields`. -/
theorem c3_amended_strip_extraction :
    (∀ (line : Str) (r0 r : SmartData) (f : SField) (tok : Str),
        f ∈ sataFields →
        sataFields.foldlM (applySmartField line) r0 = .ok r →
        chContains f.label line = true →
        (pySplitWs (pyStripChars f.label line)).get? f.idx = some tok →
        alLookup f.key r = some (Value.str tok))
    ∧ (∀ (line : Str) (r0 r : SmartData) (f : SField) (tok : Str),
        f ∈ diskFields →
        diskFields.foldlM (applySmartField line) r0 = .ok r →
        chContains f.label line = true →
        (pySplitWs (pyStripChars f.label line)).get? f.idx = some tok →
        alLookup f.key r = some (Value.str tok)) := by
  constructor
  · intro line r0 r f tok hf h hc htok
    exact foldFields_found line sataFields r0 r f tok (by decide) hf h hc htok
  · intro line r0 r f tok hf h hc htok
    exact foldFields_found line diskFields r0 r f tok (by decide) hf h hc htok

/-- Witness for C3 amended: a colon-free fixed-column `Health Status`
line stores the device-reported state `OK`. -/
theorem c3_amended_strip_extraction_witness :
    sataFields.foldlM (applySmartField "Health Status   OK   N/A   N/A".toList) []
      = .ok [(healthKey, Value.str "OK".toList)]
    ∧ alLookup healthKey [(healthKey, Value.str "OK".toList)]
      = some (Value.str "OK".toList) := by
  constructor
  · decide
  · exact c3_amended_strip_extraction.1 "Health Status   OK   N/A   N/A".toList []
      [(healthKey, Value.str "OK".toList)]
      ⟨"Health Status".toList, healthKey, 0⟩ "OK".toList
      (by decide) (by decide) (by decide) (by decide)

-- sanity checks on the string primitives (concrete evaluations)
example : pySplitOn ':' "a:b:c".toList = ["a".toList, "b".toList, "c".toList] := by decide
example : pySplitWs "  a  bc ".toList = ["a".toList, "bc".toList] := by decide
example : pyStripChars "Health Status".toList "Health Status: OK N/A N/A".toList
    = ": OK N/A N/A".toList := by decide
example : pyInt " 5".toList = some 5 := by decide
example : pyIntBase16 "1a".toList = some 26 := by decide
example : pyFloat "300.15".toList = some ⟨30015, 100⟩ := by decide
example : pyRound (fracSub ⟨30015, 100⟩ k27315) = 27 := by decide
example : chContains "Health Status".toList "  Health Status  OK".toList = true := by decide
example :
    nvmeProcessLine [] "Media Errors: 0x1a".toList
      = .ok [("Media Errors".toList, Value.int 26)] := by decide
example :
    nvmeProcessLine [] "Composite Temperature: 300.15 K".toList
      = .ok [(celciusKey, Value.int 27)] := by decide
example :
    nvmeParse [(healthKey, Value.str "OK".toList)]
      ["Available Spare: 5%".toList, "Available Spare Threshold: 10%".toList]
      = .ok [(healthKey, Value.str "Not OK".toList),
             (spareKey, Value.int 5), (thresholdKey, Value.int 10)] := by decide
example :
    parseSmartLines sataFields [] ["Health Status: OK N/A N/A".toList]
      = .ok [(healthKey, Value.str ":".toList)] := by decide
example :
    parseSmartLines sataFields [] ["Drive Temperature   30  100  0  25".toList]
      = .ok [(celciusKey, Value.str "25".toList)] := by decide
example :
    runLoop none ⟨[], []⟩
      [(⟨"s1".toList, "h1".toList, "NVME".toList, "d1".toList⟩, .failure "boom".toList)]
      = (⟨[], [startMsg ⟨"s1".toList, "h1".toList, "NVME".toList, "d1".toList⟩,
              "boom".toList]⟩, .raised .typeError) := by decide
example :
    runLoop none ⟨[], []⟩
      [(⟨"s1".toList, "h1".toList, "FOO".toList, "d1".toList⟩, .failure "x".toList)]
      = (⟨[(serverKey ⟨"s1".toList, "h1".toList, "FOO".toList, "d1".toList⟩, [])],
          [startMsg ⟨"s1".toList, "h1".toList, "FOO".toList, "d1".toList⟩,
           unsupportedMsg,
           failedMsg ⟨"s1".toList, "h1".toList, "FOO".toList, "d1".toList⟩]⟩,
         .brokeOut) := by decide
